import Mathlib

/-!
Shallow embedding of `cloud/amazon/ec2_vpc.py` (the VPC reconciliation
module).  Provider-side state is modelled by an explicit `World`; every
mutating provider call is recorded in an output trace of `Call`s; Python
exceptions become the `VpcError` sum type.  Tag dictionaries are modelled
as association lists with last-binding-wins lookup (`dlookup`), matching
Python dict-comprehension semantics.
-/

set_option maxHeartbeats 1000000

namespace EC2VPC

/-- A tag mapping, as an association list of (name, value) pairs.  Python
builds these with dict comprehensions, so a later binding for the same key
shadows an earlier one; `dlookup` implements that last-wins semantics. -/
abbrev TagMap := List (String × String)

/-- Dictionary lookup with last-binding-wins semantics (later entries
shadow earlier ones, as in a Python dict built by successive insertion). -/
def dlookup : TagMap → String → Option String
  | [], _ => none
  | p :: rest, k =>
    match dlookup rest k with
    | some v => some v
    | none => if p.1 = k then some p.2 else none

/-- A VPC as returned by the provider.  Mirrors the fields read by
`vpc_json` plus `state`. -/
structure Vpc where
  id : String
  cidr_block : String
  dhcp_options_id : String
  region : String
  state : String
deriving DecidableEq, Repr

/-- A subnet as returned by the provider (fields read by `subnet_json`),
plus the VPC it belongs to (used by the `vpc_id` query filter). -/
structure Subnet where
  id : String
  cidr_block : String
  availability_zone : String
  vpc_id : String
deriving DecidableEq, Repr

/-- A route-table association; the code only reads its `main` flag. -/
structure RouteTableAssociation where
  main : Bool
deriving DecidableEq, Repr

/-- A route table as returned by the provider.  `id` is an `Option`
because the code explicitly guards `route_table.id is None`. -/
structure RouteTable where
  id : Option String
  associations : List RouteTableAssociation
  vpc_id : String
deriving DecidableEq, Repr

/-- An internet gateway together with the VPC it is attached to
(used by the `attachment.vpc-id` query filter). -/
structure InternetGateway where
  id : String
  attached_vpc_id : String
deriving DecidableEq, Repr

/-- The provider-side state observable through the boto connection. -/
structure World where
  vpcs : List Vpc
  tagEntries : List (String × String × String)
  subnets : List Subnet
  routeTables : List RouteTable
  igws : List InternetGateway
deriving Repr

/-- `vpc_conn.get_all_tags(filters={'resource-id': rid})`, already shaped
as the (name, value) dict the callers build from it. -/
def get_all_tags (w : World) (rid : String) : TagMap :=
  (w.tagEntries.filter (fun e => e.1 == rid)).map (fun e => e.2)

/-- `vpc_conn.get_all_vpcs(None, {'vpc-id': vid, 'state': 'available'})`. -/
def get_all_vpcs_by_id (w : World) (vid : String) : List Vpc :=
  w.vpcs.filter (fun v => v.id == vid && v.state == "available")

/-- `vpc_conn.get_all_vpcs(None, {'cidr': c, 'state': 'available'})`. -/
def get_all_vpcs_by_cidr (w : World) (c : String) : List Vpc :=
  w.vpcs.filter (fun v => v.cidr_block == c && v.state == "available")

/-- `vpc_conn.get_all_subnets(filters={'vpc_id': vid})`. -/
def get_all_subnets (w : World) (vid : String) : List Subnet :=
  w.subnets.filter (fun s => s.vpc_id == vid)

/-- `vpc_conn.get_all_route_tables(filters={'vpc-id': vid})` (the absent
path spells the filter `'vpc_id'`; both are modelled as the same query). -/
def get_all_route_tables (w : World) (vid : String) : List RouteTable :=
  w.routeTables.filter (fun rt => rt.vpc_id == vid)

/-- `vpc_conn.get_all_internet_gateways(filters={'attachment.vpc-id': vid})`. -/
def get_all_internet_gateways (w : World) (vid : String) : List InternetGateway :=
  w.igws.filter (fun g => g.attached_vpc_id == vid)

/-- Errors raised by the module.  `invalidSpec`, `ambiguousMatch`,
`unknownSubnet`, `waitTimeout` and `providerError` model the
`AnsibleVPCException` raise sites; `noneTypeAttributeError` models the
Python `AttributeError` from reading an attribute of `None`;
`indexError` models `pvpc[0]` on an empty list during polling. -/
inductive VpcError where
  | invalidSpec
  | ambiguousMatch
  | unknownSubnet (subnet_id : String)
  | waitTimeout
  | providerError (code : String) (msg : String)
  | noneTypeAttributeError (attr : String)
  | indexError
deriving DecidableEq, Repr

/-- The mutating provider calls the module can issue, in issue order. -/
inductive Call where
  | create_vpc (cidr_block : Option String) (instance_tenancy : String)
  | create_tags (rid : String) (tags : TagMap)
  | modify_vpc_attribute_dns_support (rid : String) (value : Bool)
  | modify_vpc_attribute_dns_hostnames (rid : String) (value : Bool)
  | delete_subnet (subnet_id : String)
  | delete_route_table (route_table_id : Option String)
  | detach_internet_gateway (igw_id : String) (vpc_id : String)
  | delete_internet_gateway (igw_id : String)
  | delete_vpc (vpc_id : String)
deriving DecidableEq, Repr

/-- The two DNS attribute writes, i.e. the calls the present path issues
unconditionally outside check mode. -/
def Call.isAttrWrite : Call → Bool
  | .modify_vpc_attribute_dns_support _ _ => true
  | .modify_vpc_attribute_dns_hostnames _ _ => true
  | _ => false

/-- Effect of `vpc_conn.create_tags(rid, tags)` on provider state:
additive tag write (new bindings shadow old ones of the same key, other
keys untouched). -/
def World.create_tags_apply (w : World) (rid : String) (tags : TagMap) : World :=
  { w with tagEntries := w.tagEntries ++ tags.map (fun p => (rid, p)) }

/-- Effect of `vpc_conn.delete_subnet(sid)` on provider state. -/
def World.delete_subnet_apply (w : World) (sid : String) : World :=
  { w with subnets := w.subnets.filter (fun s => !(s.id == sid)) }

/-- Effect of `vpc_conn.delete_route_table(rid)` on provider state. -/
def World.delete_route_table_apply (w : World) (rid : Option String) : World :=
  { w with routeTables := w.routeTables.filter (fun rt => !(rt.id == rid)) }

/-- `set(resource_tags.items()).issubset(set(vpc_tags.items()))`:
every desired (key, value) pair is bound exactly so in the observed
dictionary. -/
def tagsSubset (resource_tags : TagMap) (vpc_tags : TagMap) : Bool :=
  resource_tags.all (fun p => dlookup vpc_tags p.1 == some p.2)

/-- `find_vpc(vpc_conn, resource_tags, vpc_id, cidr)`: resolves a VPC by
id, or by cidr plus a tag-subset test; zero matches is `none`, one match
is that VPC, more than one raises. -/
def find_vpc (w : World) (resource_tags : Option TagMap)
    (vpc_id : Option String) (cidr : Option String) :
    Except VpcError (Option Vpc) :=
  if vpc_id.isNone && (cidr.isNone || (resource_tags.getD []).isEmpty) then
    .error .invalidSpec
  else
    let found_vpcs : List Vpc :=
      match vpc_id with
      | some vid => get_all_vpcs_by_id w vid
      | none =>
        (get_all_vpcs_by_cidr w (cidr.getD "")).filter
          (fun v => tagsSubset (resource_tags.getD []) (get_all_tags w v.id))
    match found_vpcs with
    | [] => .ok none
    | [v] => .ok (some v)
    | _ => .error .ambiguousMatch

/-- `route_table_is_main(route_table)`: a table with no id, or with any
association marked main, counts as the implicit main table. -/
def route_table_is_main (route_table : RouteTable) : Bool :=
  match route_table.id with
  | none => true
  | some _ => route_table.associations.any (fun a => a.main)

/-- The `new_tags` dict of the tag step: the desired (key, value) pairs
not already bound in the observed tags. -/
def compute_new_tags (resource_tags vpc_tags : TagMap) : TagMap :=
  resource_tags.filter (fun p => !(dlookup vpc_tags p.1 == some p.2))

/-- One `get_all_vpcs(vpc.id)` response during the availability wait:
either a single object carrying a state, a list of such objects (the code
reads element 0), or a `BotoServerError` with a code and message. -/
inductive PollResponse where
  | single (state : String)
  | listed (states : List String)
  | err (code : String) (msg : String)
deriving DecidableEq, Repr

/-- The check after the polling loop exits: `if wait and wait_timeout <=
time.time(): raise` the wait-timeout error. -/
def after_wait_check (wait : Bool) (deadline now : Nat) : Except VpcError Unit :=
  if wait = true ∧ deadline ≤ now then .error .waitTimeout else .ok ()

/-- The availability-polling loop (lines 293-316).  Time is an abstract
clock advanced 5 units per sleep; `deadline` is `time.time() +
wait_timeout` computed at entry; `polls i` is the provider's answer to the
i-th `get_all_vpcs(vpc.id)` call.  Exactly the error code
`InvalidVpcID.NotFound` is swallowed and retried; any other code is
re-raised and (as in the enclosing handler) wrapped as a provider error. -/
def poll_wait (polls : Nat → PollResponse) (wait : Bool) (deadline : Nat) :
    Nat → Nat → Bool → Except VpcError Unit
  | now, idx, pending =>
    if h : wait = true ∧ now < deadline ∧ pending = true then
      match polls idx with
      | .err code msg =>
        if code = "InvalidVpcID.NotFound" then
          poll_wait polls wait deadline (now + 5) (idx + 1) true
        else
          .error (.providerError code msg)
      | .single s =>
        if s = "available" then after_wait_check wait deadline now
        else poll_wait polls wait deadline (now + 5) (idx + 1) true
      | .listed [] => .error .indexError
      | .listed (s :: _) =>
        if s = "available" then after_wait_check wait deadline now
        else poll_wait polls wait deadline (now + 5) (idx + 1) true
    else after_wait_check wait deadline now
termination_by now _ _ => deadline - now
decreasing_by all_goals (simp_all; omega)

/-- `vpc_json(vpc)`. -/
structure VpcJson where
  id : String
  cidr_block : String
  dhcp_options_id : String
  region : String
  state : String
deriving DecidableEq, Repr

/-- `vpc_json(vpc)`: the dictionary reported for a VPC. -/
def vpc_json (vpc : Vpc) : VpcJson :=
  { id := vpc.id, cidr_block := vpc.cidr_block,
    dhcp_options_id := vpc.dhcp_options_id, region := vpc.region,
    state := vpc.state }

/-- `subnet_json(vpc_conn, subnet)`. -/
structure SubnetJson where
  resource_tags : TagMap
  cidr : String
  az : String
  id : String
deriving DecidableEq, Repr

/-- `subnet_json(vpc_conn, subnet)`: the dictionary reported for a subnet,
with its tags read live from the connection. -/
def subnet_json (w : World) (s : Subnet) : SubnetJson :=
  { resource_tags := get_all_tags w s.id, cidr := s.cidr_block,
    az := s.availability_zone, id := s.id }

/-- The dictionary returned by `ensure_vpc_present`.  `none` fields model
keys absent from the returned dict (the check-mode create return is just
`{'changed': True}`). -/
structure PresentResult where
  changed : Bool
  vpc_id : Option String := none
  vpc : Option VpcJson := none
  subnets : Option (List SubnetJson) := none
deriving DecidableEq, Repr

/-- Outcome of the tag step (lines 324-346): either the check-mode
short-circuit return, or fall-through with the updated world, issued
calls, and whether `changed` was set. -/
inductive TagStepResult where
  | checkReturn (r : PresentResult)
  | cont (w : World) (calls : List Call) (changed : Bool)
deriving Repr

/-- The tag step (lines 324-346): compute the desired pairs missing from
the observed tags; if any, either short-circuit in check mode or issue a
single additive `create_tags` call. -/
def tag_step (w : World) (vpc : Vpc) (resource_tags : Option TagMap)
    (check_mode : Bool) : TagStepResult :=
  let vpc_tags := get_all_tags w vpc.id
  let rt := resource_tags.getD []
  if !rt.isEmpty && !(tagsSubset rt vpc_tags) then
    let new_tags := compute_new_tags rt vpc_tags
    if !new_tags.isEmpty then
      if check_mode then
        .checkReturn { changed := true, vpc_id := some vpc.id,
                       vpc := some (vpc_json vpc), subnets := some [] }
      else
        .cont (w.create_tags_apply vpc.id new_tags)
          [Call.create_tags vpc.id new_tags] true
    else .cont w [] false
  else .cont w [] false

/-- Outcome of the subnet membership step (lines 358-388). -/
inductive SubnetStepResult where
  | checkReturn (r : PresentResult)
  | err (e : VpcError) (calls : List Call)
  | cont (w : World) (calls : List Call) (changed : Bool)
deriving Repr

/-- The validation loop of lines 361-364: the first desired subnet id not
present among the observed subnets, if any.  (The source's raise site
formats its message with a possibly-unbound `e`; either way the
reconciliation aborts with an error at this point.) -/
def validate_subnet_ids (current : List Subnet) : List String → Option String
  | [] => none
  | sid :: rest =>
    if current.any (fun s => s.id == sid) then validate_subnet_ids current rest
    else some sid

/-- The deletion loop of lines 366-388 over the observed-subnet snapshot:
keep listed subnets, short-circuit in check mode at the first extra one
(reporting the retained subnets), otherwise delete each extra subnet. -/
def subnet_delete_loop (vpc : Vpc) (subnet_ids : List String)
    (check_mode : Bool) (current_full : List Subnet) :
    World → List Call → Bool → List Subnet → SubnetStepResult
  | w, calls, changed, [] => .cont w calls changed
  | w, calls, changed, s :: rest =>
    if subnet_ids.contains s.id then
      subnet_delete_loop vpc subnet_ids check_mode current_full w calls changed rest
    else if check_mode then
      .checkReturn { changed := true, vpc_id := some vpc.id,
                     vpc := some (vpc_json vpc),
                     subnets := some ((current_full.filter
                       (fun t => subnet_ids.contains t.id)).map (subnet_json w)) }
    else
      subnet_delete_loop vpc subnet_ids check_mode current_full
        (w.delete_subnet_apply s.id) (calls ++ [Call.delete_subnet s.id]) true rest

/-- The subnet membership step (lines 358-388): skipped when the desired
list is absent; otherwise validate every desired id against the observed
snapshot, then prune extras. -/
def subnet_step (w : World) (vpc : Vpc) (subnet_ids : Option (List String))
    (check_mode : Bool) : SubnetStepResult :=
  match subnet_ids with
  | none => .cont w [] false
  | some sids =>
    let current := get_all_subnets w vpc.id
    match validate_subnet_ids current sids with
    | some sid => .err (.unknownSubnet sid) []
    | none => subnet_delete_loop vpc sids check_mode current w [] false current

/-- Outcome of the route-table membership step (lines 394-419).  Unlike
the subnet step it has no validation and therefore no error outcome. -/
inductive RtStepResult where
  | checkReturn (r : PresentResult)
  | cont (w : World) (calls : List Call) (changed : Bool)
deriving Repr

/-- The `continue` condition of the loop at lines 400-403: the table's id
is in the desired list (`None` is never in a list of strings), or the
table is the implicit main table. -/
def rt_kept (route_table_ids : List String) (rt : RouteTable) : Bool :=
  (match rt.id with
   | some i => route_table_ids.contains i
   | none => false) || route_table_is_main rt

/-- The deletion loop of lines 400-419 over the observed route-table
snapshot: keep listed or main tables, short-circuit in check mode at the
first extra one (reporting `json_subnets`), otherwise delete each extra. -/
def rt_delete_loop (vpc : Vpc) (route_table_ids : List String)
    (check_mode : Bool) (json_subnets : List SubnetJson) :
    World → List Call → Bool → List RouteTable → RtStepResult
  | w, calls, changed, [] => .cont w calls changed
  | w, calls, changed, rt :: rest =>
    if rt_kept route_table_ids rt then
      rt_delete_loop vpc route_table_ids check_mode json_subnets w calls changed rest
    else if check_mode then
      .checkReturn { changed := true, vpc_id := some vpc.id,
                     vpc := some (vpc_json vpc), subnets := some json_subnets }
    else
      rt_delete_loop vpc route_table_ids check_mode json_subnets
        (w.delete_route_table_apply rt.id)
        (calls ++ [Call.delete_route_table rt.id]) true rest

/-- The route-table membership step (lines 394-419): skipped when the
desired list is absent; no validation of the desired ids is performed. -/
def rt_step (w : World) (vpc : Vpc) (route_table_ids : Option (List String))
    (check_mode : Bool) (json_subnets : List SubnetJson) : RtStepResult :=
  match route_table_ids with
  | none => .cont w [] false
  | some rtids =>
    rt_delete_loop vpc rtids check_mode json_subnets w [] false
      (get_all_route_tables w vpc.id)

/-- Lines 321-426 of `ensure_vpc_present`: everything after the VPC is
resolved or created — tag step, the unconditional DNS attribute writes
(skipped silently in check mode), subnet step, the fresh `json_subnets`
snapshot, route-table step, and the final return. -/
def present_after_find (w : World) (vpc : Vpc)
    (dns_support dns_hostnames : Bool)
    (subnet_ids route_table_ids : Option (List String))
    (resource_tags : Option TagMap) (check_mode : Bool)
    (calls0 : List Call) (changed0 : Bool) :
    Except VpcError PresentResult × List Call :=
  match tag_step w vpc resource_tags check_mode with
  | .checkReturn r => (.ok r, calls0)
  | .cont w1 tagCalls changed1 =>
    let attrCalls : List Call :=
      if check_mode then []
      else [Call.modify_vpc_attribute_dns_support vpc.id dns_support,
            Call.modify_vpc_attribute_dns_hostnames vpc.id dns_hostnames]
    match subnet_step w1 vpc subnet_ids check_mode with
    | .err e cs => (.error e, calls0 ++ tagCalls ++ attrCalls ++ cs)
    | .checkReturn r => (.ok r, calls0 ++ tagCalls ++ attrCalls)
    | .cont w2 snCalls changed2 =>
      let json_subnets := (get_all_subnets w2 vpc.id).map (subnet_json w2)
      match rt_step w2 vpc route_table_ids check_mode json_subnets with
      | .checkReturn r => (.ok r, calls0 ++ tagCalls ++ attrCalls ++ snCalls)
      | .cont _ rtCalls changed3 =>
        (.ok { changed := changed0 || changed1 || changed2 || changed3,
               vpc_id := some vpc.id, vpc := some (vpc_json vpc),
               subnets := some json_subnets },
         calls0 ++ tagCalls ++ attrCalls ++ snCalls ++ rtCalls)

/-- `ensure_vpc_present` (lines 264-426).  `created` is the VPC the
provider would return from `create_vpc`, `polls` the script of
`get_all_vpcs` answers during the availability wait, and `now0` the clock
at entry; the returned trace lists the mutating calls issued. -/
def ensure_vpc_present (w : World) (vpc_id cidr_block : Option String)
    (instance_tenancy : String) (dns_support dns_hostnames : Bool)
    (subnet_ids route_table_ids : Option (List String))
    (resource_tags : Option TagMap) (wait : Bool) (wait_timeout : Nat)
    (check_mode : Bool) (created : Vpc) (polls : Nat → PollResponse)
    (now0 : Nat) : Except VpcError PresentResult × List Call :=
  match find_vpc w resource_tags vpc_id cidr_block with
  | .error e => (.error e, [])
  | .ok none =>
    if check_mode then (.ok { changed := true }, [])
    else
      let calls0 := [Call.create_vpc cidr_block instance_tenancy]
      let w1 : World := { w with vpcs := w.vpcs ++ [created] }
      match poll_wait polls wait (now0 + wait_timeout) now0 0 true with
      | .error e => (.error e, calls0)
      | .ok () =>
        present_after_find w1 created dns_support dns_hostnames
          subnet_ids route_table_ids resource_tags check_mode calls0 true
  | .ok (some vpc) =>
    present_after_find w vpc dns_support dns_hostnames
      subnet_ids route_table_ids resource_tags check_mode [] false

/-- The dictionary returned by `ensure_vpc_absent`; `vpc := none` models
the empty `{}` dict of the not-found check-mode return. -/
structure AbsentResult where
  changed : Bool
  vpc_id : Option String
  vpc : Option VpcJson
deriving DecidableEq, Repr

/-- The teardown deletion sequence (lines 460-482): all subnets, then
detach+delete all attached internet gateways, then all route tables with
no association marked main, then the VPC itself. -/
def absent_delete_calls (w : World) (vpc : Vpc) : List Call :=
  ((get_all_subnets w vpc.id).map (fun sn => Call.delete_subnet sn.id))
  ++ ((get_all_internet_gateways w vpc.id).flatMap
        (fun igw => [Call.detach_internet_gateway igw.id vpc.id,
                     Call.delete_internet_gateway igw.id]))
  ++ (((get_all_route_tables w vpc.id).filter
        (fun rt => !(rt.associations.any (fun a => a.main)))).map
        (fun rt => Call.delete_route_table rt.id))
  ++ [Call.delete_vpc vpc.id]

/-- `ensure_vpc_absent` (lines 429-488).  Note the source's non-check
branch keeps `changed = False` when the found VPC is available and only
enters the deletion branch when its state is not `available`; and the
final `return` reads `vpc.id` even when `find_vpc` returned `None`,
which in Python raises `AttributeError`. -/
def ensure_vpc_absent (w : World) (resource_tags : Option TagMap)
    (vpc_id cidr : Option String) (check_mode : Bool) :
    Except VpcError AbsentResult × List Call :=
  match find_vpc w resource_tags vpc_id cidr with
  | .error e => (.error e, [])
  | .ok ovpc =>
    if check_mode then
      match ovpc with
      | none => (.ok { changed := false, vpc_id := vpc_id, vpc := none }, [])
      | some vpc =>
        (.ok { changed := vpc.state == "available", vpc_id := some vpc.id,
               vpc := some (vpc_json vpc) }, [])
    else
      match ovpc with
      | none => (.error (.noneTypeAttributeError "id"), [])
      | some vpc =>
        if vpc.state == "available" then
          (.ok { changed := false, vpc_id := some vpc.id,
                 vpc := some (vpc_json vpc) }, [])
        else
          (.ok { changed := true, vpc_id := some vpc.id,
                 vpc := some (vpc_json vpc) }, absent_delete_calls w vpc)

/-! Concrete provider states used to evaluate the model on the spec's
scenarios. -/

/-- An available VPC, as in the spec's creation scenario. -/
def exVpc : Vpc :=
  { id := "vpc-1", cidr_block := "10.0.0.0/16",
    dhcp_options_id := "dopt-1", region := "us-west-2", state := "available" }

/-- A subnet of `exVpc`. -/
def exSubnetA : Subnet :=
  { id := "subnet-a", cidr_block := "10.0.0.0/24",
    availability_zone := "us-west-2a", vpc_id := "vpc-1" }

/-- A second subnet of `exVpc`. -/
def exSubnetB : Subnet :=
  { id := "subnet-b", cidr_block := "10.0.1.0/24",
    availability_zone := "us-west-2b", vpc_id := "vpc-1" }

/-- The implicit main route table of `exVpc`. -/
def exRtbMain : RouteTable :=
  { id := some "rtb-m", associations := [{ main := true }], vpc_id := "vpc-1" }

/-- A non-main route table of `exVpc`. -/
def exRtbExtra : RouteTable :=
  { id := some "rtb-x", associations := [{ main := false }], vpc_id := "vpc-1" }

/-- A route table of `exVpc` lacking an identifier. -/
def exRtbNoId : RouteTable :=
  { id := none, associations := [{ main := false }], vpc_id := "vpc-1" }

/-- An internet gateway attached to `exVpc`. -/
def exIgw : InternetGateway := { id := "igw-1", attached_vpc_id := "vpc-1" }

/-- A fully populated provider state around `exVpc`. -/
def exWorld : World :=
  { vpcs := [exVpc], tagEntries := [("vpc-1", "Env", "dev")],
    subnets := [exSubnetA, exSubnetB], routeTables := [exRtbMain, exRtbExtra],
    igws := [exIgw] }

/-- A provider state with `exVpc`, one subnet and no tags. -/
def exWorldPlain : World :=
  { vpcs := [exVpc], tagEntries := [], subnets := [exSubnetA],
    routeTables := [], igws := [] }

/-- A provider state where `exVpc` is fully converged for the spec
`resource_tags = {Env: dev}` with no managed children. -/
def exWorldConverged : World :=
  { vpcs := [exVpc], tagEntries := [("vpc-1", "Env", "dev")], subnets := [],
    routeTables := [], igws := [] }

/-- An empty provider state. -/
def exWorldEmpty : World :=
  { vpcs := [], tagEntries := [], subnets := [], routeTables := [], igws := [] }

/-- A poll script that always answers with an available VPC. -/
def exPollsAvail : Nat → PollResponse := fun _ => .single "available"

/-- The candidates accumulated by the cidr+tags branch of `find_vpc`: the
available VPCs with the requested CIDR whose tags contain every desired
(key, value) pair. -/
def matching_vpcs (w : World) (resource_tags : TagMap) (c : String) : List Vpc :=
  (get_all_vpcs_by_cidr w c).filter
    (fun v => tagsSubset resource_tags (get_all_tags w v.id))

/-! Lemmas about the tag dictionary operations. -/

theorem dlookup_append (l₁ l₂ : TagMap) (k : String) :
    dlookup (l₁ ++ l₂) k =
      match dlookup l₂ k with
      | some v => some v
      | none => dlookup l₁ k := by
  induction l₁ with
  | nil => cases h : dlookup l₂ k <;> simp [dlookup, h]
  | cons p rest ih =>
    simp only [List.cons_append, dlookup, List.append_eq]
    rw [ih]
    cases h : dlookup l₂ k <;> cases h₂ : dlookup rest k <;> simp [h, h₂]

theorem mem_compute_new_tags (T O : TagMap) (p : String × String) :
    p ∈ compute_new_tags T O ↔ p ∈ T ∧ ¬ dlookup O p.1 = some p.2 := by
  simp [compute_new_tags, List.mem_filter]

theorem compute_new_tags_nil_iff (T O : TagMap) :
    compute_new_tags T O = [] ↔ tagsSubset T O = true := by
  simp [compute_new_tags, tagsSubset, List.filter_eq_nil_iff, List.all_eq_true]

theorem dlookup_eq_none_of_not_mem_keys (M : TagMap) (k : String)
    (h : k ∉ M.map Prod.fst) : dlookup M k = none := by
  induction M with
  | nil => rfl
  | cons p rest ih =>
    simp only [List.map_cons, List.mem_cons, not_or] at h
    simp [dlookup, ih h.2, Ne.symm h.1]

theorem dlookup_of_mem_nodup (M : TagMap) (k v : String)
    (hnd : (M.map Prod.fst).Nodup) (hm : (k, v) ∈ M) : dlookup M k = some v := by
  induction M with
  | nil => simp at hm
  | cons p rest ih =>
    simp only [List.map_cons, List.nodup_cons] at hnd
    rcases List.mem_cons.mp hm with h | h
    · have hk : k ∉ rest.map Prod.fst := by
        rw [← h] at hnd; exact hnd.1
      simp [dlookup, dlookup_eq_none_of_not_mem_keys rest k hk, ← h]
    · simp [dlookup, ih hnd.2 h]

theorem compute_new_tags_idem (T O : TagMap) (hT : (T.map Prod.fst).Nodup) :
    compute_new_tags T (O ++ compute_new_tags T O) = [] := by
  rw [compute_new_tags, List.filter_eq_nil_iff]
  intro p hp
  simp only [Bool.not_eq_true', beq_eq_false_iff_ne, ne_eq, Decidable.not_not,
    Bool.not_eq_eq_eq_not, Bool.not_true, decide_eq_false_iff_not]
  rw [dlookup_append]
  by_cases hd : dlookup O p.1 = some p.2
  · have hpM : p.1 ∉ (compute_new_tags T O).map Prod.fst := by
      intro hmem
      rcases List.mem_map.mp hmem with ⟨q, hq, hqfst⟩
      have hqT := (mem_compute_new_tags T O q).mp hq
      have hq2 : q.2 = p.2 := by
        have h₁ := dlookup_of_mem_nodup T q.1 q.2 hT
          (by exact (Prod.mk.eta ▸ hqT.1))
        have h₂ := dlookup_of_mem_nodup T p.1 p.2 hT
          (by exact (Prod.mk.eta ▸ hp))
        rw [hqfst] at h₁
        rw [h₁] at h₂
        exact Option.some_inj.mp h₂
      apply hqT.2
      rw [hqfst, hq2]
      exact hd
    rw [dlookup_eq_none_of_not_mem_keys _ _ hpM]
    exact hd
  · have hpM : p ∈ compute_new_tags T O :=
      (mem_compute_new_tags T O p).mpr ⟨hp, hd⟩
    have hndM : ((compute_new_tags T O).map Prod.fst).Nodup :=
      ((List.filter_sublist T).map Prod.fst).nodup hT
    rw [dlookup_of_mem_nodup _ p.1 p.2 hndM (Prod.mk.eta ▸ hpM)]

theorem get_all_tags_create_tags_apply (w : World) (rid : String) (ts : TagMap) :
    get_all_tags (w.create_tags_apply rid ts) rid = get_all_tags w rid ++ ts := by
  simp only [get_all_tags, World.create_tags_apply, List.filter_append,
    List.map_append, List.append_cancel_left_eq]
  induction ts with
  | nil => rfl
  | cons p rest ih => simp [ih]

/-! Lemmas about the tag step. -/

theorem tag_step_cont_of_nil (w : World) (vpc : Vpc) (rtags : Option TagMap)
    (cm : Bool)
    (h : compute_new_tags (rtags.getD []) (get_all_tags w vpc.id) = []) :
    tag_step w vpc rtags cm = .cont w [] false := by
  by_cases he : (rtags.getD []).isEmpty
  · simp [tag_step, he]
  · have hs : tagsSubset (rtags.getD []) (get_all_tags w vpc.id) = true :=
      (compute_new_tags_nil_iff _ _).mp h
    simp [tag_step, he, hs]

theorem tag_step_false_of_ne_nil (w : World) (vpc : Vpc) (rtags : Option TagMap)
    (h : compute_new_tags (rtags.getD []) (get_all_tags w vpc.id) ≠ []) :
    tag_step w vpc rtags false =
      .cont (w.create_tags_apply vpc.id
          (compute_new_tags (rtags.getD []) (get_all_tags w vpc.id)))
        [Call.create_tags vpc.id
          (compute_new_tags (rtags.getD []) (get_all_tags w vpc.id))] true := by
  have he : (rtags.getD []).isEmpty = false := by
    cases hrt : rtags.getD [] with
    | nil => rw [hrt] at h; simp [compute_new_tags] at h
    | cons a l => rfl
  have hs : tagsSubset (rtags.getD []) (get_all_tags w vpc.id) = false := by
    cases hss : tagsSubset (rtags.getD []) (get_all_tags w vpc.id)
    · rfl
    · exact absurd ((compute_new_tags_nil_iff _ _).mpr hss) h
  have hne : (compute_new_tags (rtags.getD [])
      (get_all_tags w vpc.id)).isEmpty = false := by
    cases hM : compute_new_tags (rtags.getD []) (get_all_tags w vpc.id)
    · exact absurd hM h
    · rfl
  simp [tag_step, he, hs, hne]

theorem tag_step_true_of_ne_nil (w : World) (vpc : Vpc) (rtags : Option TagMap)
    (h : compute_new_tags (rtags.getD []) (get_all_tags w vpc.id) ≠ []) :
    tag_step w vpc rtags true =
      .checkReturn { changed := true, vpc_id := some vpc.id,
                     vpc := some (vpc_json vpc), subnets := some [] } := by
  have he : (rtags.getD []).isEmpty = false := by
    cases hrt : rtags.getD [] with
    | nil => rw [hrt] at h; simp [compute_new_tags] at h
    | cons a l => rfl
  have hs : tagsSubset (rtags.getD []) (get_all_tags w vpc.id) = false := by
    cases hss : tagsSubset (rtags.getD []) (get_all_tags w vpc.id)
    · rfl
    · exact absurd ((compute_new_tags_nil_iff _ _).mpr hss) h
  have hne : (compute_new_tags (rtags.getD [])
      (get_all_tags w vpc.id)).isEmpty = false := by
    cases hM : compute_new_tags (rtags.getD []) (get_all_tags w vpc.id)
    · exact absurd hM h
    · rfl
  simp [tag_step, he, hs, hne]

/-- C6: the tag reconciler computes `missing` as exactly the (key, value)
pairs of the desired tags T not present in the observed tags O; when that
set is empty no tag call is made; when non-empty exactly those pairs are
applied through one additive `create_tags` call; bindings for keys outside
the missing set are preserved by the application; and recomputing against
`O ++ missing` yields the empty missing set (idempotence). -/
theorem c6_tag_reconciler (w : World) (vpc : Vpc) (T : TagMap)
    (hT : (T.map Prod.fst).Nodup) :
    (∀ (O : TagMap) (p : String × String),
        p ∈ compute_new_tags T O ↔ p ∈ T ∧ ¬ dlookup O p.1 = some p.2)
  ∧ (compute_new_tags T (get_all_tags w vpc.id) = [] →
        tag_step w vpc (some T) false = .cont w [] false)
  ∧ (compute_new_tags T (get_all_tags w vpc.id) ≠ [] →
        tag_step w vpc (some T) false =
          .cont (w.create_tags_apply vpc.id
              (compute_new_tags T (get_all_tags w vpc.id)))
            [Call.create_tags vpc.id
              (compute_new_tags T (get_all_tags w vpc.id))] true)
  ∧ (∀ k, k ∉ (compute_new_tags T (get_all_tags w vpc.id)).map Prod.fst →
        dlookup (get_all_tags (w.create_tags_apply vpc.id
            (compute_new_tags T (get_all_tags w vpc.id))) vpc.id) k
          = dlookup (get_all_tags w vpc.id) k)
  ∧ (∀ O : TagMap, compute_new_tags T (O ++ compute_new_tags T O) = []) := by
  refine ⟨fun O p => mem_compute_new_tags T O p,
    fun h => tag_step_cont_of_nil w vpc (some T) false h,
    fun h => tag_step_false_of_ne_nil w vpc (some T) h,
    fun k hk => ?_,
    fun O => compute_new_tags_idem T O hT⟩
  rw [get_all_tags_create_tags_apply, dlookup_append,
    dlookup_eq_none_of_not_mem_keys _ _ hk]

/-- Witness for C6: on a VPC with no observed tags and desired tags
`{Env: dev}`, the tag step issues exactly one `create_tags` call carrying
exactly that missing pair. -/
theorem c6_tag_reconciler_witness :
    tag_step exWorldPlain exVpc (some [("Env", "dev")]) false =
      .cont (exWorldPlain.create_tags_apply "vpc-1" [("Env", "dev")])
        [Call.create_tags "vpc-1" [("Env", "dev")]] true := by
  have h := (c6_tag_reconciler exWorldPlain exVpc [("Env", "dev")]
    (by decide)).2.2.1 (by decide)
  exact h

/-! The matcher (C5). -/

theorem find_vpc_cidr_eq (w : World) (rt : TagMap) (c : String) (hrt : rt ≠ []) :
    find_vpc w (some rt) none (some c) =
      match matching_vpcs w rt c with
      | [] => .ok none
      | [v] => .ok (some v)
      | _ => .error .ambiguousMatch := by
  have he : rt.isEmpty = false := by
    cases rt with
    | nil => exact absurd rfl hrt
    | cons a l => rfl
  simp only [find_vpc, matching_vpcs, Option.isNone_none, Option.isNone_some,
    Option.getD_some, he, Bool.false_or, Bool.true_and, Bool.and_self,
    if_neg Bool.false_ne_true]

/-- C5: with a cidr+tags key (no resourceId), the matcher returns NotFound
when zero available candidates with that CIDR pass the tag-subset test,
returns the unique passing candidate when exactly one does, raises the
hard `ambiguousMatch` failure when two or more pass, and the answer is
independent of the order in which the provider lists the candidates. -/
theorem c5_matcher_deterministic (w w' : World) (rt : TagMap) (c : String)
    (hrt : rt ≠ [])
    (hperm : w'.vpcs.Perm w.vpcs) (htags : w'.tagEntries = w.tagEntries) :
    (matching_vpcs w rt c = [] → find_vpc w (some rt) none (some c) = .ok none)
  ∧ (∀ v, matching_vpcs w rt c = [v] →
        find_vpc w (some rt) none (some c) = .ok (some v))
  ∧ (2 ≤ (matching_vpcs w rt c).length →
        find_vpc w (some rt) none (some c) = .error .ambiguousMatch)
  ∧ find_vpc w' (some rt) none (some c) = find_vpc w (some rt) none (some c) := by
  have hgt : get_all_tags w' = get_all_tags w := by
    funext rid
    simp [get_all_tags, htags]
  have hperm' : (matching_vpcs w' rt c).Perm (matching_vpcs w rt c) := by
    unfold matching_vpcs get_all_vpcs_by_cidr
    rw [hgt]
    exact (hperm.filter _).filter _
  refine ⟨?_, ?_, ?_, ?_⟩
  · intro h
    rw [find_vpc_cidr_eq w rt c hrt, h]
  · intro v h
    rw [find_vpc_cidr_eq w rt c hrt, h]
  · intro h
    rw [find_vpc_cidr_eq w rt c hrt]
    rcases hm : matching_vpcs w rt c with _ | ⟨a, _ | ⟨b, t⟩⟩
    · rw [hm] at h; simp at h
    · rw [hm] at h; simp at h
    · rfl
  · rw [find_vpc_cidr_eq w' rt c hrt, find_vpc_cidr_eq w rt c hrt]
    rcases hm : matching_vpcs w rt c with _ | ⟨a, _ | ⟨b, t⟩⟩
    · rw [hm] at hperm'
      rw [List.perm_nil.mp hperm']
    · rw [hm] at hperm'
      rw [List.perm_singleton.mp hperm']
    · rw [hm] at hperm'
      have hl := hperm'.length_eq
      rcases hm2 : matching_vpcs w' rt c with _ | ⟨x, _ | ⟨y, s⟩⟩
      · rw [hm2] at hl; simp at hl
      · rw [hm2] at hl; simp at hl
      · rfl

/-- Witness for C5: in `exWorld` exactly one available VPC carries CIDR
10.0.0.0/16 with tags containing {Env: dev}, and the matcher returns it. -/
theorem c5_matcher_deterministic_witness :
    find_vpc exWorld (some [("Env", "dev")]) none (some "10.0.0.0/16") =
      .ok (some exVpc) :=
  (c5_matcher_deterministic exWorld exWorld [("Env", "dev")] "10.0.0.0/16"
    (by decide) (List.Perm.refl _) rfl).2.1 exVpc (by decide)

/-! The teardown path (C1, C2). -/

/-- C1 (evidence for the code bug): non-dry-run teardown of an available,
fully populated VPC reports `changed = false` and issues no provider calls
at all — the deletion branch requires `state != 'available'`, a condition
the matcher (which filters on `state=available`) can never produce — while
the check-mode branch of the very same function reports `changed = true`
for the same state, as does the function's own docstring. -/
theorem c1_teardown_inverted_availability :
    ensure_vpc_absent exWorld none (some "vpc-1") none false =
      (.ok { changed := false, vpc_id := some "vpc-1",
             vpc := some (vpc_json exVpc) }, [])
  ∧ (ensure_vpc_absent exWorld none (some "vpc-1") none true).1 =
      .ok { changed := true, vpc_id := some "vpc-1",
            vpc := some (vpc_json exVpc) } := by
  constructor <;> rfl

/-- C2 (evidence for the code bug): when the matcher finds nothing, the
dry-run teardown returns `changed = false` successfully, but the
non-dry-run teardown falls through to the final `return` which reads
`vpc.id` on `None` and dies with an `AttributeError` instead of returning
`changed = false`. -/
theorem c2_absent_notfound_crash :
    ensure_vpc_absent exWorldEmpty none (some "vpc-404") none false =
      (.error (.noneTypeAttributeError "id"), [])
  ∧ ensure_vpc_absent exWorldEmpty none (some "vpc-404") none true =
      (.ok { changed := false, vpc_id := some "vpc-404", vpc := none }, []) := by
  constructor <;> rfl

/-! The availability-polling loop (C9). -/

theorem poll_wait_guard_false (polls : Nat → PollResponse) (wait : Bool)
    (deadline now idx : Nat) (pending : Bool)
    (h : ¬(wait = true ∧ now < deadline ∧ pending = true)) :
    poll_wait polls wait deadline now idx pending =
      after_wait_check wait deadline now := by
  rw [poll_wait]
  simp [h]

theorem poll_wait_err_fatal (polls : Nat → PollResponse)
    (deadline now idx : Nat) (code msg : String)
    (hlt : now < deadline) (hp : polls idx = .err code msg)
    (hc : code ≠ "InvalidVpcID.NotFound") :
    poll_wait polls true deadline now idx true =
      .error (.providerError code msg) := by
  rw [poll_wait]
  simp [hlt, hp, hc]

theorem poll_wait_err_retry (polls : Nat → PollResponse)
    (deadline now idx : Nat) (msg : String)
    (hlt : now < deadline)
    (hp : polls idx = .err "InvalidVpcID.NotFound" msg) :
    poll_wait polls true deadline now idx true =
      poll_wait polls true deadline (now + 5) (idx + 1) true := by
  rw [poll_wait]
  simp [hlt, hp]

theorem poll_wait_timeout_all (polls : Nat → PollResponse) (deadline : Nat)
    (hall : ∀ j, ∃ m, polls j = .err "InvalidVpcID.NotFound" m) :
    ∀ now idx, poll_wait polls true deadline now idx true =
      .error .waitTimeout := by
  suffices H : ∀ n now idx, deadline - now ≤ n →
      poll_wait polls true deadline now idx true = .error .waitTimeout by
    intro now idx
    exact H (deadline - now) now idx le_rfl
  intro n
  induction n with
  | zero =>
    intro now idx hn
    have hge : deadline ≤ now := by omega
    rw [poll_wait_guard_false]
    · simp [after_wait_check, hge]
    · rintro ⟨_, hlt, _⟩
      omega
  | succ n ih =>
    intro now idx hn
    by_cases hlt : now < deadline
    · obtain ⟨m, hm⟩ := hall idx
      rw [poll_wait_err_retry polls deadline now idx m hlt hm]
      exact ih (now + 5) (idx + 1) (by omega)
    · have hge : deadline ≤ now := by omega
      rw [poll_wait_guard_false]
      · simp [after_wait_check, hge]
      · rintro ⟨_, h2, _⟩
        exact hlt h2

/-- C9: during the availability wait, an `InvalidVpcID.NotFound` provider
error is treated as still-pending and the loop simply polls again; any
other provider error code aborts with it (wrapped as a provider error);
when every poll keeps answering the retryable code the loop ends in the
`waitTimeout` failure once the deadline passes, an error distinct from any
provider error; and a polling failure propagates out of
`ensure_vpc_present` after the create call. -/
theorem c9_polling_error_taxonomy :
    (∀ (polls : Nat → PollResponse) (deadline now idx : Nat) (code msg : String),
        now < deadline → polls idx = .err code msg →
        code ≠ "InvalidVpcID.NotFound" →
        poll_wait polls true deadline now idx true =
          .error (.providerError code msg))
  ∧ (∀ (polls : Nat → PollResponse) (deadline now idx : Nat) (msg : String),
        now < deadline → polls idx = .err "InvalidVpcID.NotFound" msg →
        poll_wait polls true deadline now idx true =
          poll_wait polls true deadline (now + 5) (idx + 1) true)
  ∧ (∀ (polls : Nat → PollResponse) (deadline now idx : Nat),
        (∀ j, ∃ m, polls j = .err "InvalidVpcID.NotFound" m) →
        poll_wait polls true deadline now idx true = .error .waitTimeout)
  ∧ (∀ code msg, VpcError.waitTimeout ≠ VpcError.providerError code msg)
  ∧ (∀ (w : World) (vid cb : Option String) (ten : String) (ds dh : Bool)
        (sids rtids : Option (List String)) (rtags : Option TagMap)
        (wait : Bool) (wt : Nat) (created : Vpc)
        (polls : Nat → PollResponse) (now0 : Nat) (e : VpcError),
        find_vpc w rtags vid cb = .ok none →
        poll_wait polls wait (now0 + wt) now0 0 true = .error e →
        ensure_vpc_present w vid cb ten ds dh sids rtids rtags wait wt false
            created polls now0 =
          (.error e, [Call.create_vpc cb ten])) := by
  refine ⟨poll_wait_err_fatal, poll_wait_err_retry,
    fun polls deadline now idx hall =>
      poll_wait_timeout_all polls deadline hall now idx,
    fun code msg h => VpcError.noConfusion h,
    ?_⟩
  intro w vid cb ten ds dh sids rtids rtags wait wt created polls now0 e
    hfind hpoll
  simp [ensure_vpc_present, hfind, hpoll]

/-- Witness for C9: a non-retryable provider error code aborts the wait
with that provider error. -/
theorem c9_polling_error_taxonomy_witness :
    poll_wait (fun _ => .err "Unauthorized" "denied") true 10 0 0 true =
      .error (.providerError "Unauthorized" "denied") :=
  c9_polling_error_taxonomy.1 (fun _ => .err "Unauthorized" "denied")
    10 0 0 "Unauthorized" "denied" (by decide) rfl (by decide)

/-! Lemmas about the membership-reconciliation loops. -/

theorem subnet_loop_cons_kept (vpc : Vpc) (sids : List String) (cm : Bool)
    (cf : List Subnet) (w : World) (calls : List Call) (ch : Bool)
    (s : Subnet) (rest : List Subnet) (hs : sids.contains s.id = true) :
    subnet_delete_loop vpc sids cm cf w calls ch (s :: rest) =
      subnet_delete_loop vpc sids cm cf w calls ch rest := by
  have hmem : s.id ∈ sids := by simpa using hs
  simp [subnet_delete_loop, hmem]

theorem subnet_loop_cons_extra_check (vpc : Vpc) (sids : List String)
    (cf : List Subnet) (w : World) (calls : List Call) (ch : Bool)
    (s : Subnet) (rest : List Subnet) (hs : sids.contains s.id = false) :
    subnet_delete_loop vpc sids true cf w calls ch (s :: rest) =
      .checkReturn { changed := true, vpc_id := some vpc.id,
                     vpc := some (vpc_json vpc),
                     subnets := some ((cf.filter
                       (fun t => sids.contains t.id)).map (subnet_json w)) } := by
  have hmem : s.id ∉ sids := by simpa using hs
  simp [subnet_delete_loop, hmem]

theorem subnet_loop_cons_extra_delete (vpc : Vpc) (sids : List String)
    (cf : List Subnet) (w : World) (calls : List Call) (ch : Bool)
    (s : Subnet) (rest : List Subnet) (hs : sids.contains s.id = false) :
    subnet_delete_loop vpc sids false cf w calls ch (s :: rest) =
      subnet_delete_loop vpc sids false cf (w.delete_subnet_apply s.id)
        (calls ++ [Call.delete_subnet s.id]) true rest := by
  have hmem : s.id ∉ sids := by simpa using hs
  simp [subnet_delete_loop, hmem]

theorem subnet_loop_all_kept (vpc : Vpc) (sids : List String) (cm : Bool)
    (cf : List Subnet) :
    ∀ (l : List Subnet) (w : World) (calls : List Call) (ch : Bool),
    (∀ s ∈ l, sids.contains s.id = true) →
    subnet_delete_loop vpc sids cm cf w calls ch l = .cont w calls ch := by
  intro l
  induction l with
  | nil => intro w calls ch _; rfl
  | cons s rest ih =>
    intro w calls ch h
    rw [subnet_loop_cons_kept vpc sids cm cf w calls ch s rest
      (h s (List.mem_cons_self s rest))]
    exact ih w calls ch (fun t ht => h t (List.mem_cons_of_mem s ht))

theorem subnet_loop_check_extra (vpc : Vpc) (sids : List String)
    (cf : List Subnet) :
    ∀ (l : List Subnet) (w : World) (calls : List Call) (ch : Bool),
    (∃ s ∈ l, sids.contains s.id = false) →
    subnet_delete_loop vpc sids true cf w calls ch l =
      .checkReturn { changed := true, vpc_id := some vpc.id,
                     vpc := some (vpc_json vpc),
                     subnets := some ((cf.filter
                       (fun t => sids.contains t.id)).map (subnet_json w)) } := by
  intro l
  induction l with
  | nil => intro w calls ch h; simp at h
  | cons s rest ih =>
    intro w calls ch h
    cases hs : sids.contains s.id with
    | false => exact subnet_loop_cons_extra_check vpc sids cf w calls ch s rest hs
    | true =>
      rw [subnet_loop_cons_kept vpc sids true cf w calls ch s rest hs]
      rcases h with ⟨t, ht, hkt⟩
      rcases List.mem_cons.mp ht with h1 | h1
      · rw [h1, hs] at hkt; exact absurd hkt (by simp)
      · exact ih w calls ch ⟨t, h1, hkt⟩

theorem subnet_loop_check_cont (vpc : Vpc) (sids : List String)
    (cf : List Subnet) :
    ∀ (l : List Subnet) (w : World) (calls : List Call) (ch : Bool)
      (w' : World) (cs' : List Call) (ch' : Bool),
    subnet_delete_loop vpc sids true cf w calls ch l = .cont w' cs' ch' →
    w' = w ∧ cs' = calls ∧ ch' = ch := by
  intro l
  induction l with
  | nil =>
    intro w calls ch w' cs' ch' h
    cases h
    exact ⟨rfl, rfl, rfl⟩
  | cons s rest ih =>
    intro w calls ch w' cs' ch' h
    cases hs : sids.contains s.id with
    | true =>
      rw [subnet_loop_cons_kept vpc sids true cf w calls ch s rest hs] at h
      exact ih w calls ch w' cs' ch' h
    | false =>
      rw [subnet_loop_cons_extra_check vpc sids cf w calls ch s rest hs] at h
      cases h

theorem subnet_loop_calls_shape (vpc : Vpc) (sids : List String)
    (cf : List Subnet) :
    ∀ (l : List Subnet) (w : World) (calls : List Call) (ch : Bool)
      (w' : World) (cs' : List Call) (ch' : Bool),
    subnet_delete_loop vpc sids false cf w calls ch l = .cont w' cs' ch' →
    ∀ c ∈ cs', c ∈ calls ∨ ∃ sid, c = Call.delete_subnet sid := by
  intro l
  induction l with
  | nil =>
    intro w calls ch w' cs' ch' h c hc
    cases h
    exact Or.inl hc
  | cons s rest ih =>
    intro w calls ch w' cs' ch' h c hc
    cases hs : sids.contains s.id with
    | true =>
      rw [subnet_loop_cons_kept vpc sids false cf w calls ch s rest hs] at h
      exact ih w calls ch w' cs' ch' h c hc
    | false =>
      rw [subnet_loop_cons_extra_delete vpc sids cf w calls ch s rest hs] at h
      rcases ih _ _ _ _ _ _ h c hc with h1 | h1
      · rcases List.mem_append.mp h1 with h2 | h2
        · exact Or.inl h2
        · exact Or.inr ⟨s.id, List.mem_singleton.mp h2⟩
      · exact Or.inr h1

theorem subnet_loop_cont_routeTables (vpc : Vpc) (sids : List String)
    (cm : Bool) (cf : List Subnet) :
    ∀ (l : List Subnet) (w : World) (calls : List Call) (ch : Bool)
      (w' : World) (cs' : List Call) (ch' : Bool),
    subnet_delete_loop vpc sids cm cf w calls ch l = .cont w' cs' ch' →
    w'.routeTables = w.routeTables := by
  intro l
  induction l with
  | nil =>
    intro w calls ch w' cs' ch' h
    cases h
    rfl
  | cons s rest ih =>
    intro w calls ch w' cs' ch' h
    cases hs : sids.contains s.id with
    | true =>
      rw [subnet_loop_cons_kept vpc sids cm cf w calls ch s rest hs] at h
      exact ih w calls ch w' cs' ch' h
    | false =>
      cases cm with
      | true =>
        rw [subnet_loop_cons_extra_check vpc sids cf w calls ch s rest hs] at h
        cases h
      | false =>
        rw [subnet_loop_cons_extra_delete vpc sids cf w calls ch s rest hs] at h
        exact (ih _ _ _ _ _ _ h).trans rfl

theorem rt_loop_cons_kept (vpc : Vpc) (rtids : List String) (cm : Bool)
    (js : List SubnetJson) (w : World) (calls : List Call) (ch : Bool)
    (rt : RouteTable) (rest : List RouteTable)
    (hs : rt_kept rtids rt = true) :
    rt_delete_loop vpc rtids cm js w calls ch (rt :: rest) =
      rt_delete_loop vpc rtids cm js w calls ch rest := by
  simp [rt_delete_loop, hs]

theorem rt_loop_cons_extra_check (vpc : Vpc) (rtids : List String)
    (js : List SubnetJson) (w : World) (calls : List Call) (ch : Bool)
    (rt : RouteTable) (rest : List RouteTable)
    (hs : rt_kept rtids rt = false) :
    rt_delete_loop vpc rtids true js w calls ch (rt :: rest) =
      .checkReturn { changed := true, vpc_id := some vpc.id,
                     vpc := some (vpc_json vpc), subnets := some js } := by
  simp [rt_delete_loop, hs]

theorem rt_loop_cons_extra_delete (vpc : Vpc) (rtids : List String)
    (js : List SubnetJson) (w : World) (calls : List Call) (ch : Bool)
    (rt : RouteTable) (rest : List RouteTable)
    (hs : rt_kept rtids rt = false) :
    rt_delete_loop vpc rtids false js w calls ch (rt :: rest) =
      rt_delete_loop vpc rtids false js (w.delete_route_table_apply rt.id)
        (calls ++ [Call.delete_route_table rt.id]) true rest := by
  simp [rt_delete_loop, hs]

theorem rt_loop_all_kept (vpc : Vpc) (rtids : List String) (cm : Bool)
    (js : List SubnetJson) :
    ∀ (l : List RouteTable) (w : World) (calls : List Call) (ch : Bool),
    (∀ rt ∈ l, rt_kept rtids rt = true) →
    rt_delete_loop vpc rtids cm js w calls ch l = .cont w calls ch := by
  intro l
  induction l with
  | nil => intro w calls ch _; rfl
  | cons rt rest ih =>
    intro w calls ch h
    rw [rt_loop_cons_kept vpc rtids cm js w calls ch rt rest
      (h rt (List.mem_cons_self rt rest))]
    exact ih w calls ch (fun t ht => h t (List.mem_cons_of_mem rt ht))

theorem rt_loop_check_extra (vpc : Vpc) (rtids : List String)
    (js : List SubnetJson) :
    ∀ (l : List RouteTable) (w : World) (calls : List Call) (ch : Bool),
    (∃ rt ∈ l, rt_kept rtids rt = false) →
    rt_delete_loop vpc rtids true js w calls ch l =
      .checkReturn { changed := true, vpc_id := some vpc.id,
                     vpc := some (vpc_json vpc), subnets := some js } := by
  intro l
  induction l with
  | nil => intro w calls ch h; simp at h
  | cons rt rest ih =>
    intro w calls ch h
    cases hs : rt_kept rtids rt with
    | false => exact rt_loop_cons_extra_check vpc rtids js w calls ch rt rest hs
    | true =>
      rw [rt_loop_cons_kept vpc rtids true js w calls ch rt rest hs]
      rcases h with ⟨t, ht, hkt⟩
      rcases List.mem_cons.mp ht with h1 | h1
      · rw [h1, hs] at hkt; exact absurd hkt (by simp)
      · exact ih w calls ch ⟨t, h1, hkt⟩

theorem rt_loop_check_cont (vpc : Vpc) (rtids : List String)
    (js : List SubnetJson) :
    ∀ (l : List RouteTable) (w : World) (calls : List Call) (ch : Bool)
      (w' : World) (cs' : List Call) (ch' : Bool),
    rt_delete_loop vpc rtids true js w calls ch l = .cont w' cs' ch' →
    w' = w ∧ cs' = calls ∧ ch' = ch := by
  intro l
  induction l with
  | nil =>
    intro w calls ch w' cs' ch' h
    cases h
    exact ⟨rfl, rfl, rfl⟩
  | cons rt rest ih =>
    intro w calls ch w' cs' ch' h
    cases hs : rt_kept rtids rt with
    | true =>
      rw [rt_loop_cons_kept vpc rtids true js w calls ch rt rest hs] at h
      exact ih w calls ch w' cs' ch' h
    | false =>
      rw [rt_loop_cons_extra_check vpc rtids js w calls ch rt rest hs] at h
      cases h

theorem rt_loop_calls_origin (vpc : Vpc) (rtids : List String)
    (js : List SubnetJson) :
    ∀ (l : List RouteTable) (w : World) (calls : List Call) (ch : Bool)
      (w' : World) (cs' : List Call) (ch' : Bool),
    rt_delete_loop vpc rtids false js w calls ch l = .cont w' cs' ch' →
    ∀ c ∈ cs', c ∈ calls ∨
      ∃ rt ∈ l, rt_kept rtids rt = false ∧ c = Call.delete_route_table rt.id := by
  intro l
  induction l with
  | nil =>
    intro w calls ch w' cs' ch' h c hc
    cases h
    exact Or.inl hc
  | cons rt rest ih =>
    intro w calls ch w' cs' ch' h c hc
    cases hs : rt_kept rtids rt with
    | true =>
      rw [rt_loop_cons_kept vpc rtids false js w calls ch rt rest hs] at h
      rcases ih w calls ch w' cs' ch' h c hc with h1 | ⟨t, ht, hk, hcall⟩
      · exact Or.inl h1
      · exact Or.inr ⟨t, List.mem_cons_of_mem rt ht, hk, hcall⟩
    | false =>
      rw [rt_loop_cons_extra_delete vpc rtids js w calls ch rt rest hs] at h
      rcases ih _ _ _ _ _ _ h c hc with h1 | ⟨t, ht, hk, hcall⟩
      · rcases List.mem_append.mp h1 with h2 | h2
        · exact Or.inl h2
        · exact Or.inr ⟨rt, List.mem_cons_self rt rest, hs,
            List.mem_singleton.mp h2⟩
      · exact Or.inr ⟨t, List.mem_cons_of_mem rt ht, hk, hcall⟩

theorem validate_some_of_unknown (current : List Subnet) :
    ∀ (sids : List String) (x : String), x ∈ sids →
    (∀ s ∈ current, ¬ s.id = x) →
    ∃ y, validate_subnet_ids current sids = some y := by
  intro sids
  induction sids with
  | nil => intro x hx; simp at hx
  | cons sid rest ih =>
    intro x hx hunk
    by_cases ha : current.any (fun s => s.id == sid) = true
    · rcases List.mem_cons.mp hx with h1 | h1
      · exfalso
        rcases List.any_eq_true.mp ha with ⟨s, hs, hsid⟩
        exact hunk s hs ((beq_iff_eq.mp hsid).trans h1.symm)
      · rw [show validate_subnet_ids current (sid :: rest) =
            validate_subnet_ids current rest by simp [validate_subnet_ids, ha]]
        exact ih x h1 hunk
    · exact ⟨sid, by simp [validate_subnet_ids, ha]⟩


/-! Glue lemmas about the reconciliation phases. -/

theorem get_all_subnets_create_tags_apply (w : World) (r : String)
    (ts : TagMap) (vid : String) :
    get_all_subnets (w.create_tags_apply r ts) vid = get_all_subnets w vid := rfl

theorem get_all_route_tables_create_tags_apply (w : World) (r : String)
    (ts : TagMap) (vid : String) :
    get_all_route_tables (w.create_tags_apply r ts) vid =
      get_all_route_tables w vid := rfl

theorem tag_step_cont_cases (w : World) (vpc : Vpc) (rtags : Option TagMap)
    (cm : Bool) (w1 : World) (tc : List Call) (ch1 : Bool)
    (h : tag_step w vpc rtags cm = .cont w1 tc ch1) :
    (w1 = w ∧ tc = [] ∧ ch1 = false) ∨
    (∃ M, M ≠ [] ∧ cm = false ∧
      w1 = w.create_tags_apply vpc.id M ∧
      tc = [Call.create_tags vpc.id M] ∧ ch1 = true) := by
  by_cases hM : compute_new_tags (rtags.getD []) (get_all_tags w vpc.id) = []
  · rw [tag_step_cont_of_nil w vpc rtags cm hM] at h
    cases h
    exact Or.inl ⟨rfl, rfl, rfl⟩
  · cases cm with
    | true =>
      rw [tag_step_true_of_ne_nil w vpc rtags hM] at h
      cases h
    | false =>
      rw [tag_step_false_of_ne_nil w vpc rtags hM] at h
      cases h
      exact Or.inr ⟨_, hM, rfl, rfl, rfl, rfl⟩

theorem tag_step_cont_routeTables (w : World) (vpc : Vpc)
    (rtags : Option TagMap) (cm : Bool) (w1 : World) (tc : List Call)
    (ch1 : Bool) (h : tag_step w vpc rtags cm = .cont w1 tc ch1) :
    w1.routeTables = w.routeTables := by
  rcases tag_step_cont_cases w vpc rtags cm w1 tc ch1 h with
    ⟨hw, _, _⟩ | ⟨M, _, _, hw, _, _⟩
  · rw [hw]
  · rw [hw]; rfl

theorem tag_step_cont_no_rt_delete (w : World) (vpc : Vpc)
    (rtags : Option TagMap) (cm : Bool) (w1 : World) (tc : List Call)
    (ch1 : Bool) (h : tag_step w vpc rtags cm = .cont w1 tc ch1) :
    ∀ c ∈ tc, ∀ j, c ≠ Call.delete_route_table j := by
  rcases tag_step_cont_cases w vpc rtags cm w1 tc ch1 h with
    ⟨_, htc, _⟩ | ⟨M, _, _, _, htc, _⟩
  · rw [htc]; intro c hc; simp at hc
  · rw [htc]; intro c hc j
    rw [List.mem_singleton.mp hc]
    simp

theorem subnet_loop_ne_err (vpc : Vpc) (sids : List String) (cm : Bool)
    (cf : List Subnet) (e : VpcError) (cs : List Call) :
    ∀ (l : List Subnet) (w : World) (calls : List Call) (ch : Bool),
    subnet_delete_loop vpc sids cm cf w calls ch l ≠ .err e cs := by
  intro l
  induction l with
  | nil => intro w calls ch h; cases h
  | cons s rest ih =>
    intro w calls ch h
    cases hs : sids.contains s.id with
    | true =>
      rw [subnet_loop_cons_kept vpc sids cm cf w calls ch s rest hs] at h
      exact ih _ _ _ h
    | false =>
      cases cm with
      | true =>
        rw [subnet_loop_cons_extra_check vpc sids cf w calls ch s rest hs] at h
        cases h
      | false =>
        rw [subnet_loop_cons_extra_delete vpc sids cf w calls ch s rest hs] at h
        exact ih _ _ _ h

theorem subnet_step_err_calls (w : World) (vpc : Vpc)
    (sids : Option (List String)) (cm : Bool) (e : VpcError) (cs : List Call)
    (h : subnet_step w vpc sids cm = .err e cs) : cs = [] := by
  cases sids with
  | none => cases h
  | some sl =>
    simp only [subnet_step] at h
    cases hval : validate_subnet_ids (get_all_subnets w vpc.id) sl with
    | some y => rw [hval] at h; cases h; rfl
    | none =>
      rw [hval] at h
      exact absurd h (subnet_loop_ne_err vpc sl cm _ e cs _ w [] false)

theorem subnet_step_cont_routeTables (w : World) (vpc : Vpc)
    (sids : Option (List String)) (cm : Bool) (w2 : World) (cs2 : List Call)
    (ch2 : Bool) (h : subnet_step w vpc sids cm = .cont w2 cs2 ch2) :
    w2.routeTables = w.routeTables := by
  cases sids with
  | none => cases h; rfl
  | some sl =>
    simp only [subnet_step] at h
    cases hval : validate_subnet_ids (get_all_subnets w vpc.id) sl with
    | some y => rw [hval] at h; cases h
    | none =>
      rw [hval] at h
      exact subnet_loop_cont_routeTables vpc sl cm _ _ w [] false w2 cs2 ch2 h

theorem subnet_step_cont_calls (w : World) (vpc : Vpc)
    (sids : Option (List String)) (cm : Bool) (w2 : World) (cs2 : List Call)
    (ch2 : Bool) (h : subnet_step w vpc sids cm = .cont w2 cs2 ch2) :
    ∀ c ∈ cs2, ∃ sid, c = Call.delete_subnet sid := by
  cases sids with
  | none => cases h; intro c hc; simp at hc
  | some sl =>
    simp only [subnet_step] at h
    cases hval : validate_subnet_ids (get_all_subnets w vpc.id) sl with
    | some y => rw [hval] at h; cases h
    | none =>
      rw [hval] at h
      cases cm with
      | true =>
        rcases subnet_loop_check_cont vpc sl _ _ w [] false w2 cs2 ch2 h with
          ⟨_, hcs, _⟩
        rw [hcs]
        intro c hc; simp at hc
      | false =>
        intro c hc
        rcases subnet_loop_calls_shape vpc sl _ _ w [] false w2 cs2 ch2 h c hc
          with h1 | h1
        · simp at h1
        · exact h1

theorem subnet_step_check_cont (w : World) (vpc : Vpc)
    (sids : Option (List String)) (w2 : World) (cs2 : List Call) (ch2 : Bool)
    (h : subnet_step w vpc sids true = .cont w2 cs2 ch2) :
    w2 = w ∧ cs2 = [] ∧ ch2 = false := by
  cases sids with
  | none => cases h; exact ⟨rfl, rfl, rfl⟩
  | some sl =>
    simp only [subnet_step] at h
    cases hval : validate_subnet_ids (get_all_subnets w vpc.id) sl with
    | some y => rw [hval] at h; cases h
    | none =>
      rw [hval] at h
      exact subnet_loop_check_cont vpc sl _ _ w [] false w2 cs2 ch2 h

theorem rt_step_cont_calls_origin (w : World) (vpc : Vpc)
    (rtids : Option (List String)) (cm : Bool) (js : List SubnetJson)
    (w3 : World) (cs3 : List Call) (ch3 : Bool)
    (h : rt_step w vpc rtids cm js = .cont w3 cs3 ch3) :
    ∀ c ∈ cs3, ∃ rl, rtids = some rl ∧
      ∃ rt ∈ get_all_route_tables w vpc.id,
        rt_kept rl rt = false ∧ c = Call.delete_route_table rt.id := by
  cases rtids with
  | none => cases h; intro c hc; simp at hc
  | some rl =>
    simp only [rt_step] at h
    cases cm with
    | true =>
      rcases rt_loop_check_cont vpc rl js _ w [] false w3 cs3 ch3 h with
        ⟨_, hcs, _⟩
      rw [hcs]
      intro c hc; simp at hc
    | false =>
      intro c hc
      rcases rt_loop_calls_origin vpc rl js _ w [] false w3 cs3 ch3 h c hc with
        h1 | ⟨rt, hrt, hk, hcall⟩
      · simp at h1
      · exact ⟨rl, rfl, rt, hrt, hk, hcall⟩

theorem rt_step_check_cont (w : World) (vpc : Vpc)
    (rtids : Option (List String)) (js : List SubnetJson)
    (w3 : World) (cs3 : List Call) (ch3 : Bool)
    (h : rt_step w vpc rtids true js = .cont w3 cs3 ch3) :
    w3 = w ∧ cs3 = [] ∧ ch3 = false := by
  cases rtids with
  | none => cases h; exact ⟨rfl, rfl, rfl⟩
  | some rl =>
    simp only [rt_step] at h
    exact rt_loop_check_cont vpc rl js _ w [] false w3 cs3 ch3 h

theorem route_table_is_main_false_any (rt : RouteTable)
    (h : route_table_is_main rt = false) :
    rt.associations.any (fun a => a.main) = false := by
  unfold route_table_is_main at h
  cases hid : rt.id with
  | none => rw [hid] at h; cases h
  | some i => rw [hid] at h; exact h

theorem rt_kept_false_not_main (rtids : List String) (rt : RouteTable)
    (h : rt_kept rtids rt = false) : route_table_is_main rt = false := by
  unfold rt_kept at h
  exact (Bool.or_eq_false_iff.mp h).2

/-! Membership validation (C3). -/

/-- Counterexample to C3: with `route_table_ids = [rtb-unknown]`, an
identifier matching no observed route table, the present path raises no
UnknownChildId-style error at all — it silently ignores the unknown id
and still deletes the extra non-main table `rtb-x`. -/
theorem c3_route_table_ids_not_validated :
    ensure_vpc_present exWorld (some "vpc-1") none "default" true true
        none (some ["rtb-unknown"]) none false 300 false exVpc exPollsAvail 0 =
      (.ok { changed := true, vpc_id := some "vpc-1",
             vpc := some (vpc_json exVpc),
             subnets := some [subnet_json exWorld exSubnetA,
                              subnet_json exWorld exSubnetB] },
       [Call.modify_vpc_attribute_dns_support "vpc-1" true,
        Call.modify_vpc_attribute_dns_hostnames "vpc-1" true,
        Call.delete_route_table (some "rtb-x")]) := by
  rfl

/-- C3 as amended: only the subnet membership reconciler validates the
desired-ID list.  When `subnet_ids` contains an identifier absent from
the observed subnets of the resolved VPC, the non-dry-run reconciliation
fails with the unknown-subnet error raised at the validation loop and
performs no subnet or route-table deletions; `route_table_ids` receives
no such validation (the counterexample shows unknown route-table ids are
silently ignored while deletions proceed). -/
theorem c3_amended_subnet_validation (w : World) (vid cb : Option String)
    (ten : String) (ds dh : Bool) (sids : List String)
    (rtids : Option (List String)) (rtags : Option TagMap)
    (wait : Bool) (wt : Nat) (created : Vpc) (polls : Nat → PollResponse)
    (now0 : Nat) (vpc : Vpc) (x : String)
    (hfind : find_vpc w rtags vid cb = .ok (some vpc))
    (hx : x ∈ sids)
    (hunk : ∀ s ∈ get_all_subnets w vpc.id, ¬ s.id = x) :
    ∃ y cs,
      ensure_vpc_present w vid cb ten ds dh (some sids) rtids rtags wait wt
          false created polls now0 = (.error (.unknownSubnet y), cs)
      ∧ ∀ c ∈ cs, (∀ i, c ≠ Call.delete_subnet i) ∧
          (∀ j, c ≠ Call.delete_route_table j) := by
  obtain ⟨y, hy⟩ := validate_some_of_unknown (get_all_subnets w vpc.id) sids x hx hunk
  by_cases hM : compute_new_tags (rtags.getD []) (get_all_tags w vpc.id) = []
  · have htag := tag_step_cont_of_nil w vpc rtags false hM
    have hsn : subnet_step w vpc (some sids) false =
        .err (.unknownSubnet y) [] := by
      simp [subnet_step, hy]
    refine ⟨y, [Call.modify_vpc_attribute_dns_support vpc.id ds,
      Call.modify_vpc_attribute_dns_hostnames vpc.id dh], ?_, ?_⟩
    · simp [ensure_vpc_present, hfind, present_after_find, htag, hsn]
    · intro c hc
      simp only [List.nil_append, List.append_nil, List.mem_cons,
        List.not_mem_nil, or_false, List.mem_append] at hc
      rcases hc with h | h <;> (rw [h]; exact ⟨fun i => by simp, fun j => by simp⟩)
  · have htag := tag_step_false_of_ne_nil w vpc rtags hM
    have hsn : subnet_step
        (w.create_tags_apply vpc.id
          (compute_new_tags (rtags.getD []) (get_all_tags w vpc.id)))
        vpc (some sids) false = .err (.unknownSubnet y) [] := by
      simp [subnet_step, get_all_subnets_create_tags_apply, hy]
    refine ⟨y, [Call.create_tags vpc.id
        (compute_new_tags (rtags.getD []) (get_all_tags w vpc.id)),
      Call.modify_vpc_attribute_dns_support vpc.id ds,
      Call.modify_vpc_attribute_dns_hostnames vpc.id dh], ?_, ?_⟩
    · simp [ensure_vpc_present, hfind, present_after_find, htag, hsn]
    · intro c hc
      simp only [List.nil_append, List.append_nil, List.mem_cons,
        List.not_mem_nil, or_false, List.mem_append] at hc
      rcases hc with h | h | h <;>
        (rw [h]; exact ⟨fun i => by simp, fun j => by simp⟩)

/-- Witness for the amended C3: asking to keep unknown subnet `subnet-zz`
on `exVpc` aborts with the unknown-subnet error and no deletions. -/
theorem c3_amended_subnet_validation_witness :
    ∃ y cs,
      ensure_vpc_present exWorld (some "vpc-1") none "default" true true
          (some ["subnet-zz"]) none none false 300 false exVpc exPollsAvail 0 =
        (.error (.unknownSubnet y), cs)
      ∧ ∀ c ∈ cs, (∀ i, c ≠ Call.delete_subnet i) ∧
          (∀ j, c ≠ Call.delete_route_table j) :=
  c3_amended_subnet_validation exWorld (some "vpc-1") none "default" true true
    ["subnet-zz"] none none false 300 exVpc exPollsAvail 0 exVpc "subnet-zz"
    (by rfl) (by decide) (by decide)

/-! Route-table deletion soundness (shared by C7 and C10). -/

theorem paf_rt_delete_origin (w : World) (vpc : Vpc) (ds dh : Bool)
    (sids rtids : Option (List String)) (rtags : Option TagMap) (cm : Bool)
    (calls0 : List Call) (ch0 : Bool) (i : Option String)
    (h0 : ∀ c ∈ calls0, ∀ j, c ≠ Call.delete_route_table j)
    (hc : Call.delete_route_table i ∈
      (present_after_find w vpc ds dh sids rtids rtags cm calls0 ch0).2) :
    ∃ rt ∈ w.routeTables, rt.id = i ∧ route_table_is_main rt = false := by
  cases htag : tag_step w vpc rtags cm with
  | checkReturn r =>
    simp only [present_after_find, htag] at hc
    exact absurd rfl (h0 _ hc i)
  | cont w1 tc ch1 =>
    have hw1 := tag_step_cont_routeTables w vpc rtags cm w1 tc ch1 htag
    have htc := tag_step_cont_no_rt_delete w vpc rtags cm w1 tc ch1 htag
    have hattr : ∀ c ∈ (if cm = true then ([] : List Call)
        else [Call.modify_vpc_attribute_dns_support vpc.id ds,
              Call.modify_vpc_attribute_dns_hostnames vpc.id dh]),
        ∀ j, c ≠ Call.delete_route_table j := by
      cases cm <;> simp
    cases hsn : subnet_step w1 vpc sids cm with
    | err e cs2 =>
      have hcs2 := subnet_step_err_calls w1 vpc sids cm e cs2 hsn
      rw [hcs2] at hsn
      simp only [present_after_find, htag, hsn, List.append_nil,
        List.mem_append] at hc
      rcases hc with (hc | hc) | hc
      · exact absurd rfl (h0 _ hc i)
      · exact absurd rfl (htc _ hc i)
      · exact absurd rfl (hattr _ hc i)
    | checkReturn r =>
      simp only [present_after_find, htag, hsn, List.mem_append] at hc
      rcases hc with (hc | hc) | hc
      · exact absurd rfl (h0 _ hc i)
      · exact absurd rfl (htc _ hc i)
      · exact absurd rfl (hattr _ hc i)
    | cont w2 cs2 ch2 =>
      have hsc := subnet_step_cont_calls w1 vpc sids cm w2 cs2 ch2 hsn
      have hw2 := subnet_step_cont_routeTables w1 vpc sids cm w2 cs2 ch2 hsn
      cases hrt : rt_step w2 vpc rtids cm
          ((get_all_subnets w2 vpc.id).map (subnet_json w2)) with
      | checkReturn r =>
        simp only [present_after_find, htag, hsn, hrt, List.mem_append] at hc
        rcases hc with ((hc | hc) | hc) | hc
        · exact absurd rfl (h0 _ hc i)
        · exact absurd rfl (htc _ hc i)
        · exact absurd rfl (hattr _ hc i)
        · rcases hsc _ hc with ⟨sid, hsid⟩
          cases hsid
      | cont w3 cs3 ch3 =>
        have horig := rt_step_cont_calls_origin w2 vpc rtids cm _ w3 cs3 ch3 hrt
        simp only [present_after_find, htag, hsn, hrt, List.mem_append] at hc
        rcases hc with (((hc | hc) | hc) | hc) | hc
        · exact absurd rfl (h0 _ hc i)
        · exact absurd rfl (htc _ hc i)
        · exact absurd rfl (hattr _ hc i)
        · rcases hsc _ hc with ⟨sid, hsid⟩
          cases hsid
        · rcases horig _ hc with ⟨rl, hrl, rt, hrtmem, hk, hcall⟩
          have hid : rt.id = i := by
            cases hcall
            rfl
          refine ⟨rt, ?_, hid, rt_kept_false_not_main rl rt hk⟩
          have hmem2 : rt ∈ w2.routeTables :=
            List.mem_of_mem_filter hrtmem
          rw [hw2, hw1] at hmem2
          exact hmem2

theorem present_rt_delete_origin (w : World) (vid cb : Option String)
    (ten : String) (ds dh : Bool) (sids rtids : Option (List String))
    (rtags : Option TagMap) (wait : Bool) (wt : Nat) (cm : Bool)
    (created : Vpc) (polls : Nat → PollResponse) (now0 : Nat)
    (i : Option String)
    (hc : Call.delete_route_table i ∈
      (ensure_vpc_present w vid cb ten ds dh sids rtids rtags wait wt cm
        created polls now0).2) :
    ∃ rt ∈ w.routeTables, rt.id = i ∧ route_table_is_main rt = false := by
  cases hfind : find_vpc w rtags vid cb with
  | error e => simp [ensure_vpc_present, hfind] at hc
  | ok ovpc =>
    cases ovpc with
    | some vpc =>
      simp only [ensure_vpc_present, hfind] at hc
      exact paf_rt_delete_origin w vpc ds dh sids rtids rtags cm [] false i
        (by intro c hcc; simp at hcc) hc
    | none =>
      cases cm with
      | true => simp [ensure_vpc_present, hfind] at hc
      | false =>
        simp only [ensure_vpc_present, hfind, Bool.false_eq_true,
          if_false] at hc
        cases hpoll : poll_wait polls wait (now0 + wt) now0 0 true with
        | error e =>
          rw [hpoll] at hc
          simp at hc
        | ok u =>
          cases u
          rw [hpoll] at hc
          have h := paf_rt_delete_origin
            { w with vpcs := w.vpcs ++ [created] } created ds dh sids rtids
            rtags false [Call.create_vpc cb ten] true i
            (by intro c hcc j; rw [List.mem_singleton.mp hcc]; simp) hc
          exact h

/-- C7: a route table one of whose associations is marked main is never
deleted: every `delete_route_table` call the present path issues targets
an observed table with no main-marked association (and not in the desired
list), and likewise every `delete_route_table` call of the teardown
deletion sequence targets a table with no main-marked association. -/
theorem c7_main_route_table_never_deleted :
    (∀ (w : World) (vid cb : Option String) (ten : String) (ds dh : Bool)
       (sids rtids : Option (List String)) (rtags : Option TagMap)
       (wait : Bool) (wt : Nat) (cm : Bool) (created : Vpc)
       (polls : Nat → PollResponse) (now0 : Nat) (i : Option String),
       Call.delete_route_table i ∈
         (ensure_vpc_present w vid cb ten ds dh sids rtids rtags wait wt cm
           created polls now0).2 →
       ∃ rt ∈ w.routeTables, rt.id = i ∧
         rt.associations.any (fun a => a.main) = false)
  ∧ (∀ (w : World) (vpc : Vpc) (i : Option String),
       Call.delete_route_table i ∈ absent_delete_calls w vpc →
       ∃ rt ∈ w.routeTables, rt.id = i ∧
         rt.associations.any (fun a => a.main) = false) := by
  constructor
  · intro w vid cb ten ds dh sids rtids rtags wait wt cm created polls now0 i hc
    obtain ⟨rt, hmem, hid, hmain⟩ := present_rt_delete_origin w vid cb ten ds dh
      sids rtids rtags wait wt cm created polls now0 i hc
    exact ⟨rt, hmem, hid, route_table_is_main_false_any rt hmain⟩
  · intro w vpc i hc
    simp only [absent_delete_calls, List.mem_append, List.mem_map,
      List.mem_flatMap, List.mem_singleton, List.mem_filter] at hc
    rcases hc with ((hc | hc) | hc) | hc
    · rcases hc with ⟨s, _, hs⟩
      cases hs
    · rcases hc with ⟨g, _, hg⟩
      simp only [List.mem_cons, List.mem_singleton, List.not_mem_nil,
        or_false] at hg
      rcases hg with hg | hg <;> cases hg
    · rcases hc with ⟨rt, ⟨hmem, hmain⟩, hcall⟩
      have hid : rt.id = i := by
        cases hcall
        rfl
      refine ⟨rt, List.mem_of_mem_filter hmem, hid, ?_⟩
      simpa using hmain
    · cases hc

/-- Witness for C7: the one route table the present path deletes in the
`exWorld` scenario is `rtb-x`, a table with no main-marked association. -/
theorem c7_main_route_table_never_deleted_witness :
    ∃ rt ∈ exWorld.routeTables, rt.id = some "rtb-x" ∧
      rt.associations.any (fun a => a.main) = false :=
  c7_main_route_table_never_deleted.1 exWorld (some "vpc-1") none "default"
    true true none (some ["rtb-unknown"]) none false 300 false exVpc
    exPollsAvail 0 (some "rtb-x") (by decide)

/-- C10: a route table whose id is `None` satisfies `route_table_is_main`,
and consequently the present path never issues a `delete_route_table`
call for a table lacking an identifier, whatever the desired list, the
associations, or the rest of the state. -/
theorem c10_no_id_route_table_is_main :
    (∀ rt : RouteTable, rt.id = none → route_table_is_main rt = true)
  ∧ (∀ (w : World) (vid cb : Option String) (ten : String) (ds dh : Bool)
       (sids rtids : Option (List String)) (rtags : Option TagMap)
       (wait : Bool) (wt : Nat) (cm : Bool) (created : Vpc)
       (polls : Nat → PollResponse) (now0 : Nat),
       Call.delete_route_table none ∉
         (ensure_vpc_present w vid cb ten ds dh sids rtids rtags wait wt cm
           created polls now0).2) := by
  constructor
  · intro rt h
    simp [route_table_is_main, h]
  · intro w vid cb ten ds dh sids rtids rtags wait wt cm created polls now0 hc
    obtain ⟨rt, _, hid, hmain⟩ := present_rt_delete_origin w vid cb ten ds dh
      sids rtids rtags wait wt cm created polls now0 none hc
    rw [show route_table_is_main rt = true by simp [route_table_is_main, hid]]
      at hmain
    cases hmain

/-- Witness for C10: a concrete id-less table is classified as the
implicit main table. -/
theorem c10_no_id_route_table_is_main_witness :
    route_table_is_main exRtbNoId = true :=
  c10_no_id_route_table_is_main.1 exRtbNoId rfl

/-! Dry-run behaviour (C4). -/

theorem paf_check_calls (w : World) (vpc : Vpc) (ds dh : Bool)
    (sids rtids : Option (List String)) (rtags : Option TagMap)
    (calls0 : List Call) (ch0 : Bool) :
    (present_after_find w vpc ds dh sids rtids rtags true calls0 ch0).2 =
      calls0 := by
  cases htag : tag_step w vpc rtags true with
  | checkReturn r => simp [present_after_find, htag]
  | cont w1 tc ch1 =>
    rcases tag_step_cont_cases w vpc rtags true w1 tc ch1 htag with
      ⟨hw, htcnil, hch1⟩ | ⟨M, _, hcmf, _⟩
    · rw [hw, htcnil, hch1] at htag
      cases hsn : subnet_step w vpc sids true with
      | err e cs2 =>
        have hcs2 := subnet_step_err_calls w vpc sids true e cs2 hsn
        subst hcs2
        simp [present_after_find, htag, hsn]
      | checkReturn r => simp [present_after_find, htag, hsn]
      | cont w2 cs2 ch2 =>
        rcases subnet_step_check_cont w vpc sids w2 cs2 ch2 hsn with
          ⟨hw2, hcs2, hch2⟩
        rw [hw2, hcs2, hch2] at hsn
        cases hrt : rt_step w vpc rtids true
            ((get_all_subnets w vpc.id).map (subnet_json w)) with
        | checkReturn r => simp [present_after_find, htag, hsn, hrt]
        | cont w3 cs3 ch3 =>
          rcases rt_step_check_cont w vpc rtids _ w3 cs3 ch3 hrt with
            ⟨hw3, hcs3, hch3⟩
          rw [hw3, hcs3, hch3] at hrt
          simp [present_after_find, htag, hsn, hrt]
    · cases hcmf

theorem c4_rt_phase (w : World) (vpc : Vpc) (ds dh : Bool)
    (sids rtids : Option (List String)) (rtags : Option TagMap)
    (htagF : tag_step w vpc rtags false = .cont w [] false)
    (htagT : tag_step w vpc rtags true = .cont w [] false)
    (hsnF : subnet_step w vpc sids false = .cont w [] false)
    (hsnT : subnet_step w vpc sids true = .cont w [] false)
    (hex : ∃ c ∈ (present_after_find w vpc ds dh sids rtids rtags false
        [] false).2, c.isAttrWrite = false) :
    ∃ r, (present_after_find w vpc ds dh sids rtids rtags true [] false).1 =
      .ok r ∧ r.changed = true := by
  cases rtids with
  | none =>
    exfalso
    rcases hex with ⟨c, hc, hfalse⟩
    simp [present_after_find, htagF, hsnF, rt_step] at hc
    rcases hc with h | h <;> (rw [h] at hfalse; simp [Call.isAttrWrite] at hfalse)
  | some rl =>
    by_cases hexr : ∃ rt' ∈ get_all_route_tables w vpc.id, rt_kept rl rt' = false
    · have hrt := rt_loop_check_extra vpc rl
        ((get_all_subnets w vpc.id).map (subnet_json w))
        (get_all_route_tables w vpc.id) w [] false hexr
      refine ⟨{ changed := true, vpc_id := some vpc.id,
                vpc := some (vpc_json vpc),
                subnets := some ((get_all_subnets w vpc.id).map
                  (subnet_json w)) }, ?_, rfl⟩
      simp [present_after_find, htagT, hsnT, rt_step, hrt]
    · have hall : ∀ rt' ∈ get_all_route_tables w vpc.id,
          rt_kept rl rt' = true := by
        intro rt' hrt'
        by_contra hne
        exact hexr ⟨rt', hrt', by revert hne; cases rt_kept rl rt' <;> simp⟩
      have hrtF := rt_loop_all_kept vpc rl false
        ((get_all_subnets w vpc.id).map (subnet_json w))
        (get_all_route_tables w vpc.id) w [] false hall
      exfalso
      rcases hex with ⟨c, hc, hfalse⟩
      simp [present_after_find, htagF, hsnF, rt_step, hrtF] at hc
      rcases hc with h | h <;> (rw [h] at hfalse; simp [Call.isAttrWrite] at hfalse)

theorem c4_found (w : World) (vpc : Vpc) (ds dh : Bool)
    (sids rtids : Option (List String)) (rtags : Option TagMap)
    (hex : ∃ c ∈ (present_after_find w vpc ds dh sids rtids rtags false
        [] false).2, c.isAttrWrite = false) :
    ∃ r, (present_after_find w vpc ds dh sids rtids rtags true [] false).1 =
      .ok r ∧ r.changed = true := by
  by_cases hM : compute_new_tags (rtags.getD []) (get_all_tags w vpc.id) = []
  · have htagF := tag_step_cont_of_nil w vpc rtags false hM
    have htagT := tag_step_cont_of_nil w vpc rtags true hM
    cases sids with
    | none => exact c4_rt_phase w vpc ds dh none rtids rtags htagF htagT rfl rfl hex
    | some sl =>
      cases hval : validate_subnet_ids (get_all_subnets w vpc.id) sl with
      | some y =>
        exfalso
        have hsnF : subnet_step w vpc (some sl) false =
            .err (.unknownSubnet y) [] := by simp [subnet_step, hval]
        rcases hex with ⟨c, hc, hfalse⟩
        simp [present_after_find, htagF, hsnF] at hc
        rcases hc with h | h <;>
          (rw [h] at hfalse; simp [Call.isAttrWrite] at hfalse)
      | none =>
        by_cases hexs : ∃ s ∈ get_all_subnets w vpc.id, sl.contains s.id = false
        · have hsnT : subnet_step w vpc (some sl) true =
              .checkReturn { changed := true, vpc_id := some vpc.id,
                             vpc := some (vpc_json vpc),
                             subnets := some (((get_all_subnets w vpc.id).filter
                               (fun t => sl.contains t.id)).map
                               (subnet_json w)) } := by
            simp only [subnet_step, hval]
            exact subnet_loop_check_extra vpc sl _ _ w [] false hexs
          refine ⟨{ changed := true, vpc_id := some vpc.id,
                    vpc := some (vpc_json vpc),
                    subnets := some (((get_all_subnets w vpc.id).filter
                      (fun t => sl.contains t.id)).map (subnet_json w)) },
            ?_, rfl⟩
          simp [present_after_find, htagT, hsnT]
        · have halls : ∀ s ∈ get_all_subnets w vpc.id,
              sl.contains s.id = true := by
            intro s hs
            by_contra hne
            exact hexs ⟨s, hs, by revert hne; cases sl.contains s.id <;> simp⟩
          have hsnF : subnet_step w vpc (some sl) false = .cont w [] false := by
            simp only [subnet_step, hval]
            exact subnet_loop_all_kept vpc sl false _ _ w [] false halls
          have hsnT : subnet_step w vpc (some sl) true = .cont w [] false := by
            simp only [subnet_step, hval]
            exact subnet_loop_all_kept vpc sl true _ _ w [] false halls
          exact c4_rt_phase w vpc ds dh (some sl) rtids rtags htagF htagT
            hsnF hsnT hex
  · have htagT := tag_step_true_of_ne_nil w vpc rtags hM
    refine ⟨{ changed := true, vpc_id := some vpc.id,
              vpc := some (vpc_json vpc), subnets := some [] }, ?_, rfl⟩
    simp [present_after_find, htagT]

/-- Counterexample to C4 as stated: on a fully converged present state a
non-dry-run pass still issues the two `modify_vpc_attribute` calls —
mutating operations from the claim's own list — yet the dry-run pass over
the same state reports `changed = false` rather than reporting
`changed = true` before those calls. -/
theorem c4_counterexample_attribute_writes :
    (ensure_vpc_present exWorldConverged (some "vpc-1") none "default" true
        true none none (some [("Env", "dev")]) false 300 false exVpc
        exPollsAvail 0).2 =
      [Call.modify_vpc_attribute_dns_support "vpc-1" true,
       Call.modify_vpc_attribute_dns_hostnames "vpc-1" true]
  ∧ (ensure_vpc_present exWorldConverged (some "vpc-1") none "default" true
        true none none (some [("Env", "dev")]) false 300 true exVpc
        exPollsAvail 0).1 =
      .ok { changed := false, vpc_id := some "vpc-1",
            vpc := some (vpc_json exVpc), subnets := some [] } := by
  constructor <;> rfl

/-- C4 as amended: a dry-run invocation issues no mutating provider call
at all, on the present path and on the absent path; and whenever the
non-dry-run present path would issue any mutation other than the two
unconditional DNS attribute writes (create, tag or child deletion), the
dry-run present path reports `changed = true`.  The DNS attribute writes
are exempt: non-dry-run issues them unconditionally and dry-run skips
them silently without reporting a change. -/
theorem c4_amended_dry_run :
    (∀ (w : World) (vid cb : Option String) (ten : String) (ds dh : Bool)
       (sids rtids : Option (List String)) (rtags : Option TagMap)
       (wait : Bool) (wt : Nat) (created : Vpc) (polls : Nat → PollResponse)
       (now0 : Nat),
       (ensure_vpc_present w vid cb ten ds dh sids rtids rtags wait wt true
         created polls now0).2 = [])
  ∧ (∀ (w : World) (rtags : Option TagMap) (vid cidr : Option String),
       (ensure_vpc_absent w rtags vid cidr true).2 = [])
  ∧ (∀ (w : World) (vid cb : Option String) (ten : String) (ds dh : Bool)
       (sids rtids : Option (List String)) (rtags : Option TagMap)
       (wait : Bool) (wt : Nat) (created : Vpc) (polls : Nat → PollResponse)
       (now0 : Nat),
       (∃ c ∈ (ensure_vpc_present w vid cb ten ds dh sids rtids rtags wait wt
           false created polls now0).2, c.isAttrWrite = false) →
       ∃ r, (ensure_vpc_present w vid cb ten ds dh sids rtids rtags wait wt
           true created polls now0).1 = .ok r ∧ r.changed = true) := by
  refine ⟨?_, ?_, ?_⟩
  · intro w vid cb ten ds dh sids rtids rtags wait wt created polls now0
    cases hfind : find_vpc w rtags vid cb with
    | error e => simp [ensure_vpc_present, hfind]
    | ok ovpc =>
      cases ovpc with
      | none => simp [ensure_vpc_present, hfind]
      | some vpc =>
        simp only [ensure_vpc_present, hfind]
        exact paf_check_calls w vpc ds dh sids rtids rtags [] false
  · intro w rtags vid cidr
    cases hfind : find_vpc w rtags vid cidr with
    | error e => simp [ensure_vpc_absent, hfind]
    | ok ovpc => cases ovpc <;> simp [ensure_vpc_absent, hfind]
  · intro w vid cb ten ds dh sids rtids rtags wait wt created polls now0 hex
    cases hfind : find_vpc w rtags vid cb with
    | error e =>
      exfalso
      rcases hex with ⟨c, hc, _⟩
      simp [ensure_vpc_present, hfind] at hc
    | ok ovpc =>
      cases ovpc with
      | none =>
        exact ⟨{ changed := true }, by simp [ensure_vpc_present, hfind], rfl⟩
      | some vpc =>
        have hredF : (ensure_vpc_present w vid cb ten ds dh sids rtids rtags
            wait wt false created polls now0) =
            present_after_find w vpc ds dh sids rtids rtags false [] false := by
          simp [ensure_vpc_present, hfind]
        have hredT : (ensure_vpc_present w vid cb ten ds dh sids rtids rtags
            wait wt true created polls now0) =
            present_after_find w vpc ds dh sids rtids rtags true [] false := by
          simp [ensure_vpc_present, hfind]
        rw [hredF] at hex
        rw [hredT]
        exact c4_found w vpc ds dh sids rtids rtags hex

/-- Witness for the amended C4: in the scenario where the non-dry-run
present path deletes route table `rtb-x`, the dry-run pass reports
`changed = true`. -/
theorem c4_amended_dry_run_witness :
    ∃ r, (ensure_vpc_present exWorld (some "vpc-1") none "default" true true
        none (some ["rtb-unknown"]) none false 300 true exVpc
        exPollsAvail 0).1 = .ok r ∧ r.changed = true :=
  c4_amended_dry_run.2.2 exWorld (some "vpc-1") none "default" true true none
    (some ["rtb-unknown"]) none false 300 exVpc exPollsAvail 0
    ⟨Call.delete_route_table (some "rtb-x"), by decide, by decide⟩

/-! Dry-run short-circuit payloads (C8). -/

/-- Counterexample to C8: `exWorldPlain` holds one subnet of `exVpc`, yet
the tag-step dry-run short-circuit reports `subnets: []` — an empty list,
not the pre-mutation children snapshot. -/
theorem c8_counterexample_tag_payload :
    ensure_vpc_present exWorldPlain (some "vpc-1") none "default" true true
        none none (some [("Env", "dev")]) false 300 true exVpc
        exPollsAvail 0 =
      (.ok { changed := true, vpc_id := some "vpc-1",
             vpc := some (vpc_json exVpc), subnets := some [] }, [])
  ∧ get_all_subnets exWorldPlain "vpc-1" = [exSubnetA] := by
  constructor <;> rfl

/-- C8 as amended: the tag-step dry-run short-circuit returns an empty
children list; the subnet-step dry-run short-circuit returns the snapshot
filtered to the retained subnets (desired ∩ observed), not the full one;
only the route-table-step dry-run short-circuit returns the full current
children snapshot. -/
theorem c8_amended_dry_run_payloads :
    (∀ (w : World) (vid cb : Option String) (ten : String) (ds dh : Bool)
       (sids rtids : Option (List String)) (rtags : Option TagMap)
       (wait : Bool) (wt : Nat) (created : Vpc) (polls : Nat → PollResponse)
       (now0 : Nat) (vpc : Vpc),
       find_vpc w rtags vid cb = .ok (some vpc) →
       compute_new_tags (rtags.getD []) (get_all_tags w vpc.id) ≠ [] →
       ensure_vpc_present w vid cb ten ds dh sids rtids rtags wait wt true
           created polls now0 =
         (.ok { changed := true, vpc_id := some vpc.id,
                vpc := some (vpc_json vpc), subnets := some [] }, []))
  ∧ (∀ (w : World) (vid cb : Option String) (ten : String) (ds dh : Bool)
       (rtids : Option (List String)) (rtags : Option TagMap)
       (wait : Bool) (wt : Nat) (created : Vpc) (polls : Nat → PollResponse)
       (now0 : Nat) (vpc : Vpc),
       find_vpc w rtags vid cb = .ok (some vpc) →
       compute_new_tags (rtags.getD []) (get_all_tags w vpc.id) = [] →
       ∀ sl : List String,
       validate_subnet_ids (get_all_subnets w vpc.id) sl = none →
       (∃ s ∈ get_all_subnets w vpc.id, sl.contains s.id = false) →
       ensure_vpc_present w vid cb ten ds dh (some sl) rtids rtags wait wt
           true created polls now0 =
         (.ok { changed := true, vpc_id := some vpc.id,
                vpc := some (vpc_json vpc),
                subnets := some (((get_all_subnets w vpc.id).filter
                  (fun t => sl.contains t.id)).map (subnet_json w)) }, []))
  ∧ (∀ (w : World) (vid cb : Option String) (ten : String) (ds dh : Bool)
       (sids : Option (List String)) (rtags : Option TagMap)
       (wait : Bool) (wt : Nat) (created : Vpc) (polls : Nat → PollResponse)
       (now0 : Nat) (vpc : Vpc),
       find_vpc w rtags vid cb = .ok (some vpc) →
       compute_new_tags (rtags.getD []) (get_all_tags w vpc.id) = [] →
       subnet_step w vpc sids true = .cont w [] false →
       ∀ rl : List String,
       (∃ rt' ∈ get_all_route_tables w vpc.id, rt_kept rl rt' = false) →
       ensure_vpc_present w vid cb ten ds dh sids (some rl) rtags wait wt
           true created polls now0 =
         (.ok { changed := true, vpc_id := some vpc.id,
                vpc := some (vpc_json vpc),
                subnets := some ((get_all_subnets w vpc.id).map
                  (subnet_json w)) }, [])) := by
  refine ⟨?_, ?_, ?_⟩
  · intro w vid cb ten ds dh sids rtids rtags wait wt created polls now0 vpc
      hfind hM
    have htagT := tag_step_true_of_ne_nil w vpc rtags hM
    simp [ensure_vpc_present, hfind, present_after_find, htagT]
  · intro w vid cb ten ds dh rtids rtags wait wt created polls now0 vpc
      hfind hM sl hval hexs
    have htagT := tag_step_cont_of_nil w vpc rtags true hM
    have hsnT : subnet_step w vpc (some sl) true =
        .checkReturn { changed := true, vpc_id := some vpc.id,
                       vpc := some (vpc_json vpc),
                       subnets := some (((get_all_subnets w vpc.id).filter
                         (fun t => sl.contains t.id)).map
                         (subnet_json w)) } := by
      simp only [subnet_step, hval]
      exact subnet_loop_check_extra vpc sl _ _ w [] false hexs
    simp [ensure_vpc_present, hfind, present_after_find, htagT, hsnT]
  · intro w vid cb ten ds dh sids rtags wait wt created polls now0 vpc
      hfind hM hsnT rl hexr
    have htagT := tag_step_cont_of_nil w vpc rtags true hM
    have hrtT := rt_loop_check_extra vpc rl
      ((get_all_subnets w vpc.id).map (subnet_json w))
      (get_all_route_tables w vpc.id) w [] false hexr
    simp [ensure_vpc_present, hfind, present_after_find, htagT, hsnT,
      rt_step, hrtT]

/-- Witness for the amended C8: pruning `exVpc` to `[subnet-a]` in dry-run
mode reports the retained subnet list `[subnet-a]`, not the full snapshot
`[subnet-a, subnet-b]`. -/
theorem c8_amended_dry_run_payloads_witness :
    ensure_vpc_present exWorld (some "vpc-1") none "default" true true
        (some ["subnet-a"]) none (some [("Env", "dev")]) false 300 true exVpc
        exPollsAvail 0 =
      (.ok { changed := true, vpc_id := some "vpc-1",
             vpc := some (vpc_json exVpc),
             subnets := some [subnet_json exWorld exSubnetA] }, []) := by
  have h := c8_amended_dry_run_payloads.2.1 exWorld (some "vpc-1") none
    "default" true true none (some [("Env", "dev")]) false 300 exVpc
    exPollsAvail 0 exVpc rfl (by decide) ["subnet-a"] (by decide) (by decide)
  exact h

end EC2VPC
